import Mathlib

/-!
# WordPecker manual-mode content engine: verification of the spec against the code

Shallow embedding of the manual-mode content engine of the WordPecker
backend (`manualDataService`, `exerciseTemplateService`, `sentenceService`,
`manualWordService`, `dataLoader`).  JavaScript `Map`s are modelled as
association lists (`List (key × value)`, first binding wins, as produced by
`Map.set`), `Record<string,string>` as `List (String × String)`,
`Math.random()` outcomes as explicit choice parameters, `Date.now()` as an
explicit `now : Nat`, and `string.toLowerCase()` as an ASCII lower-casing
map (all data handled by the engine is ASCII).  JavaScript string
truthiness (`if (s)`) is modelled by an explicit emptiness test.
-/

namespace WordPecker

/-- ASCII lower-casing of a single character, the embedding of the
effect of JavaScript `toLowerCase` on the ASCII range. -/
def charToLower (c : Char) : Char :=
  if 65 ≤ c.toNat ∧ c.toNat ≤ 90 then Char.ofNat (c.toNat + 32) else c

/-- Embedding of `string.toLowerCase()`. -/
def jsToLower (s : String) : String :=
  ⟨s.data.map charToLower⟩

/-- JavaScript string truthiness: a string is truthy iff it is non-empty. -/
def jsTruthy (s : String) : Bool :=
  s ≠ ""

/-- `manualDataService.ts` — the `Definition` record. -/
structure Definition where
  word : String
  general : String
  contextual : List (String × String)
  difficulty : String
  part_of_speech : String
deriving Repr, DecidableEq

/-- `manualDataService.ts` — the `SentenceExample` record
(only the fields the verified operations read). -/
structure SentenceExample where
  sentence : String
  translation : Option String
  context : String
  difficulty : String
deriving Repr, DecidableEq

/-- `manualDataService.ts` — the `SimilarWord` record. -/
structure SimilarWord where
  word : String
  meaning : String
  usage_note : String
deriving Repr, DecidableEq

/-- The in-memory state of `ManualDataService`: the five `Map`s. -/
structure ManualDataStore where
  definitionsDB : List (String × Definition)
  sentencesDB : List (String × List SentenceExample)
  similarWordsDB : List (String × List SimilarWord)
  distractorsDB : List (String × List String)
deriving Repr, DecidableEq

/-- The empty store (state right after construction). -/
def ManualDataStore.empty : ManualDataStore :=
  ⟨[], [], [], []⟩

/-- `Map.set`: replace the binding in place when the key is present,
append it otherwise. -/
def mapSet (m : List (String × α)) (k : String) (v : α) : List (String × α) :=
  if (m.lookup k).isSome then
    m.map (fun p => if p.1 = k then (k, v) else p)
  else
    m ++ [(k, v)]

/-- `Map.delete`. -/
def mapDelete (m : List (String × α)) (k : String) : List (String × α) :=
  m.filter (fun p => p.1 ≠ k)

/-- The sentinel string returned by `getDefinition` for an unknown word
(`manualDataService.ts`, line 79). -/
def notFoundMessage (word : String) : String :=
  "Definition not found for \"" ++ word ++ "\". Please add it to the definitions database."

/-- `ManualDataService.getDefinition` (`manualDataService.ts`, lines 76–89).
The `if (context && definition.contextual[context.toLowerCase()])` guard
tests JavaScript truthiness of both the context argument and the stored
contextual entry. -/
def getDefinition (st : ManualDataStore) (word : String) (context : Option String) : String :=
  match st.definitionsDB.lookup (jsToLower word) with
  | none => notFoundMessage word
  | some definition =>
    match context with
    | none => definition.general
    | some c =>
      if jsTruthy c then
        match definition.contextual.lookup (jsToLower c) with
        | some v => if jsTruthy v then v else definition.general
        | none => definition.general
      else definition.general

/-- `ManualDataService.getSentenceExamples` (lines 94–103). -/
def getSentenceExamples (st : ManualDataStore) (word : String)
    (context : Option String) : List SentenceExample :=
  let sentences := (st.sentencesDB.lookup (jsToLower word)).getD []
  match context with
  | none => sentences
  | some c =>
    if jsTruthy c then
      sentences.filter (fun s => jsToLower s.context == jsToLower c)
    else sentences

/-- `ManualDataService.getSimilarWords` (lines 108–110). -/
def getSimilarWords (st : ManualDataStore) (word : String) : List SimilarWord :=
  (st.similarWordsDB.lookup (jsToLower word)).getD []

/-- `ManualDataService.generateBasicDistractors` (lines 278–285). -/
def generateBasicDistractors (_word : String) : List String :=
  ["incorrect definition A", "incorrect definition B", "incorrect definition C"]

/-- The distractor lookup key of `getDistractors` (line 116):
`context ? context.toLowerCase() + "_" + word.toLowerCase() :
word.toLowerCase()`. -/
def contextKey (word : String) (context : Option String) : String :=
  match context with
  | some c => if jsTruthy c then jsToLower c ++ "_" ++ jsToLower word else jsToLower word
  | none => jsToLower word

/-- `ManualDataService.getDistractors` (lines 115–132). -/
def getDistractors (st : ManualDataStore) (word : String) (context : Option String) : List String :=
  let specificDistractors := st.distractorsDB.lookup (contextKey word context)
  match specificDistractors with
  | some specific =>
    if specific.length ≥ 3 then specific.take 3
    else
      let generalDistractors := (st.distractorsDB.lookup (jsToLower word)).getD []
      if generalDistractors.length ≥ 3 then generalDistractors.take 3
      else generateBasicDistractors word
  | none =>
    let generalDistractors := (st.distractorsDB.lookup (jsToLower word)).getD []
    if generalDistractors.length ≥ 3 then generalDistractors.take 3
    else generateBasicDistractors word

/-- `ManualDataService.hasWord` (lines 137–139). -/
def hasWord (st : ManualDataStore) (word : String) : Bool :=
  (st.definitionsDB.lookup (jsToLower word)).isSome

/-- `ManualDataService.getAllWords` (lines 144–146): the keys of the
definitions map. -/
def getAllWords (st : ManualDataStore) : List String :=
  st.definitionsDB.map Prod.fst

/-- Spec-side helper: the non-empty contextual entry stored for a
non-empty provided context, when there is one. -/
def specContextualHit (d : Definition) : Option String → Option String
  | none => none
  | some c =>
    if c = "" then none
    else
      match d.contextual.lookup (jsToLower c) with
      | some v => if v = "" then none else some v
      | none => none

/-- The spec's resolution order for `getDefinition`, written from the
(amended) spec sentence: contextual definition when the context is
provided (non-empty) and the word has a non-empty stored contextual
entry for it, otherwise the general definition, otherwise the sentinel
not-found message embedding the requested word. -/
def specDefinitionResolution (st : ManualDataStore) (word : String)
    (context : Option String) : String :=
  match st.definitionsDB.lookup (jsToLower word) with
  | none => notFoundMessage word
  | some d =>
    match specContextualHit d context with
    | some v => v
    | none => d.general

/-- The character set stripped by JavaScript `trim()` and matched by the
regex class `\s`: ASCII whitespace (TAB, LF, VT, FF, CR, space) plus
NBSP, the Unicode space separators, LS, PS and the BOM. -/
def jsWhitespace (c : Char) : Bool :=
  let n := c.toNat
  n == 9 || n == 10 || n == 11 || n == 12 || n == 13 || n == 32 ||
    n == 0xA0 || n == 0x1680 || (Nat.ble 0x2000 n && Nat.ble n 0x200A) ||
    n == 0x2028 || n == 0x2029 || n == 0x202F || n == 0x205F || n == 0x3000 ||
    n == 0xFEFF

/-- Embedding of `string.trim()`: strip leading and trailing whitespace. -/
def jsTrim (s : String) : String :=
  ⟨((s.data.dropWhile jsWhitespace).reverse.dropWhile jsWhitespace).reverse⟩

/-- The mantissa of the IEEE-754 double nearest 0.7: `fl(0.7) =
fl07num / 2^53` (the exact value `7/10 · 2^53` rounds down to it). -/
def fl07num : Nat :=
  6305039478318694

/-- Bit length with explicit fuel (structural recursion, so that it
reduces definitionally inside `decide`). -/
def bitLenAux : Nat → Nat → Nat
  | 0, _ => 0
  | fuel + 1, n => if n = 0 then 0 else bitLenAux fuel (n / 2) + 1

/-- Bit length of `n`: the number of binary digits (`0` for `0`). -/
def bitLen (n : Nat) : Nat :=
  bitLenAux n n

/-- The JavaScript product `c * 0.7` for a natural number `c` (a string
length, hence exactly representable): the exact value `c · fl(0.7)`
rounded to the nearest double with ties to even, returned as an exact
rational.  `N = c · fl07num` makes the exact product `N / 2^53`; when `N`
needs more than 53 bits its low `s` bits are rounded away. -/
def jsTimes07 (c : Nat) : ℚ :=
  let N := c * fl07num
  if N = 0 then 0
  else
    let L := bitLen N
    if L ≤ 53 then (N : ℚ) / 2 ^ 53
    else
      let s := L - 53
      let q := N / 2 ^ s
      let r := N % 2 ^ s
      let half := 2 ^ (s - 1)
      let M := if half < r then q + 1 else if r < half then q else q + q % 2
      (M : ℚ) * 2 ^ s / 2 ^ 53

/-- The JavaScript comparison `u > c * 0.7` on doubles, computed in
integers: `u` and the rounded product `jsTimes07 c = M·2^s / 2^53` are
compared after clearing the common power-of-two denominator (so the test
reduces definitionally; `jsGtTimes07_iff` ties it to `jsTimes07`). -/
def jsGtTimes07 (u c : Nat) : Bool :=
  let N := c * fl07num
  if N = 0 then decide (0 < u)
  else
    let L := bitLen N
    if L ≤ 53 then decide (N < u * 2 ^ 53)
    else
      let s := L - 53
      let q := N / 2 ^ s
      let r := N % 2 ^ s
      let half := 2 ^ (s - 1)
      let M := if half < r then q + 1 else if r < half then q else q + q % 2
      decide (M * 2 ^ s < u * 2 ^ 53)

/-- A JavaScript regex word character (`\w`): ASCII alphanumeric or underscore. -/
def isWordChar (c : Char) : Bool :=
  c.isAlphanum || c == '_'

/-- Boolean prefix test on lists. -/
def listPrefixB [BEq α] : List α → List α → Bool
  | [], _ => true
  | _ :: _, [] => false
  | a :: as, b :: bs => a == b && listPrefixB as bs

/-- Boolean contiguous-sublist test, the embedding of `string.includes`. -/
def listInfixB [BEq α] (needle : List α) : List α → Bool
  | [] => listPrefixB needle []
  | b :: t => listPrefixB needle (b :: t) || listInfixB needle t

/-- Embedding of `haystack.includes(needle)`. -/
def strIncludes (haystack needle : String) : Bool :=
  listInfixB needle.data haystack.data

/-- Case-insensitive boolean prefix test on character lists. -/
def ciPrefixB : List Char → List Char → Bool
  | [], _ => true
  | _ :: _, [] => false
  | a :: as, b :: bs => (charToLower a == charToLower b) && ciPrefixB as bs

/-- Word-char status of an optional character; string edges count as non-word. -/
def wordCharOpt : Option Char → Bool
  | some c => isWordChar c
  | none => false

/-- A `\b` word boundary holds between two (optional) characters iff
exactly one of them is a word character. -/
def boundaryB (a b : Option Char) : Bool :=
  wordCharOpt a != wordCharOpt b

/-- Does the case-insensitive pattern `w`, wrapped in `\b ... \b`, match at
the head of `text`, where `prev` is the character just before `text`? -/
def wordMatchAt (w : List Char) (prev : Option Char) (text : List Char) : Bool :=
  ciPrefixB w text
    && boundaryB prev text.head?
    && boundaryB
        (match (text.take w.length).getLast? with
         | some c => some c
         | none => prev)
        (text.drop w.length).head?

/-- First match of `new RegExp("\\b" ++ w ++ "\\b", "i")` in `text`:
returns the matched characters (original case) when found. -/
def findWordAux (w : List Char) (prev : Option Char) : List Char → Option (List Char)
  | [] => none
  | c :: rest =>
    if wordMatchAt w prev (c :: rest) then some ((c :: rest).take w.length)
    else findWordAux w (some c) rest

/-- Embedding of `text.match(new RegExp("\\b" ++ pattern ++ "\\b", "i"))`,
for patterns free of regex metacharacters (all vocabulary words are). -/
def findWordMatchCI (text pattern : String) : Option String :=
  (findWordAux pattern.data none text.data).map (fun cs => (⟨cs⟩ : String))

/-- First index of `needle` in `hay`, counting from `i`. -/
def strIndexOfAux (needle hay : List Char) (i : Nat) : Option Nat :=
  if listPrefixB needle hay then some i
  else
    match hay with
    | [] => none
    | _ :: t => strIndexOfAux needle t (i + 1)

/-- Embedding of `s.indexOf(sub)` (`none` for the JavaScript `-1` case). -/
def strIndexOf (s sub : String) : Option Nat :=
  strIndexOfAux sub.data s.data 0

/-- The blank marker used by the fill-in-the-blank generator. -/
def blankChars : List Char :=
  ['_', '_', '_', '_', '_']

/-- Global case-insensitive whole-word replacement of `w` by `_____`
(the `replace(new RegExp(..., "gi"), "_____")` call). -/
def blankWordAux (w : List Char) (prev : Option Char) (text : List Char) : List Char :=
  match text with
  | [] => []
  | c :: rest =>
    if h : w ≠ [] ∧ wordMatchAt w prev (c :: rest) then
      blankChars ++
        blankWordAux w
          (match ((c :: rest).take w.length).getLast? with
           | some lc => some lc
           | none => prev)
          ((c :: rest).drop w.length)
    else c :: blankWordAux w (some c) rest
termination_by text.length
decreasing_by
  · simp only [List.length_drop, List.length_cons]
    have : w.length ≥ 1 := by
      cases w with
      | nil => exact absurd rfl h.1
      | cons _ _ => simp
    omega
  · simp

/-- Embedding of `sentence.replace(new RegExp("\\b" ++ w ++ "\\b", "gi"), "_____")`. -/
def replaceWordBlanks (sentence word : String) : String :=
  ⟨blankWordAux word.data none sentence.data⟩

/-- Count of maximal whitespace-free runs. -/
def wsRunsAux (inToken : Bool) : List Char → Nat
  | [] => 0
  | c :: rest =>
    if jsWhitespace c then wsRunsAux false rest
    else (if inToken then 0 else 1) + wsRunsAux true rest

/-- Embedding of `s.split(/\s+/).length`: one element per whitespace-free
run, plus an empty leading (trailing) element when the string starts
(ends) with whitespace; `[""]` for the empty string. -/
def jsSplitWsCount (s : String) : Nat :=
  match s.data with
  | [] => 1
  | c :: _ =>
    wsRunsAux false s.data
      + (if jsWhitespace c then 1 else 0)
      + (if jsWhitespace (s.data.getLast?.getD c) then 1 else 0)

/-- One step of the Fisher-Yates loop body:
`[shuffled[i], shuffled[j]] = [shuffled[j], shuffled[i]]`. -/
def swapAt (l : List α) (i j : Nat) : List α :=
  match l[i]?, l[j]? with
  | some a, some b => (l.set i b).set j a
  | _, _ => l

/-- The Fisher-Yates `for (let i = ...; i > 0; i--)` loop; the argument
counts the current index, `rand i % (i+1)` embeds
`Math.floor(Math.random() * (i + 1))`. -/
def fyLoop (rand : Nat → Nat) : Nat → List α → List α
  | 0, l => l
  | i + 1, l => fyLoop rand i (swapAt l (i + 1) (rand (i + 1) % (i + 2)))

/-- `ExerciseTemplateService.shuffleArray` (`exerciseTemplateService.ts`,
lines 272–279): copy, then Fisher-Yates with a fresh random draw per index. -/
def shuffleArray (rand : Nat → Nat) (array : List α) : List α :=
  fyLoop rand (array.length - 1) array

/-- `exerciseTemplateService.ts` — the `Exercise` record.  `options` is
`none` where the TypeScript field is left undefined. -/
structure Exercise where
  id : String
  type : String
  question : String
  options : Option (List String)
  correct : String
  word : String
  context : String
  difficulty : String
  explanation : String
deriving Repr, DecidableEq

/-- The `{id, value, meaning}` word shape consumed by the generator. -/
structure WordInput where
  id : String
  value : String
  meaning : String
deriving Repr, DecidableEq

/-- `ExerciseTemplateService.getDifficultyForWord` (lines 261–267). -/
def getDifficultyForWord (word : String) : String :=
  if word.length ≤ 4 then "beginner"
  else if word.length ≤ 8 then "intermediate"
  else "advanced"

/-- `ExerciseTemplateService.generateMultipleChoice` (lines 86–107).
`rand` supplies the shuffle's random draws, `now` embeds `Date.now()`. -/
def generateMultipleChoice (st : ManualDataStore) (rand : Nat → Nat) (now : Nat)
    (word : WordInput) (context : String) : Exercise :=
  let distractors := getDistractors st word.value (some context)
  let allOptions := word.meaning :: distractors.take 3
  let shuffledOptions := shuffleArray rand allOptions
  { id := "mc_" ++ word.id ++ "_" ++ toString now
    type := "multiple_choice"
    question := "What does \"" ++ word.value ++ "\" mean" ++
      (if jsTruthy context then " in the context of " ++ context else "") ++ "?"
    options := some shuffledOptions
    correct := word.meaning
    word := word.value
    context := context
    difficulty := getDifficultyForWord word.value
    explanation := "\"" ++ word.value ++ "\" means: " ++ word.meaning }

/-- `ExerciseTemplateService.generateFillInBlank` (lines 112–149);
`pick` embeds the `Math.random()` draw selecting the sentence. -/
def generateFillInBlank (st : ManualDataStore) (pick : Nat) (now : Nat)
    (word : WordInput) (context : String) : Exercise :=
  let sentences := getSentenceExamples st word.value (some context)
  match sentences with
  | [] =>
    { id := "fib_" ++ word.id ++ "_" ++ toString now
      type := "fill_in_blank"
      question := "Complete the sentence: \"I need to use the _____ to complete this task.\" (Hint: " ++
        word.meaning ++ ")"
      options := none
      correct := word.value
      word := word.value
      context := context
      difficulty := getDifficultyForWord word.value
      explanation := "The correct word is \"" ++ word.value ++ "\"" }
  | s0 :: srest =>
    let sentence := (s0 :: srest).getD (pick % (s0 :: srest).length) s0
    let questionSentence := replaceWordBlanks sentence.sentence word.value
    { id := "fib_" ++ word.id ++ "_" ++ toString now
      type := "fill_in_blank"
      question := "Fill in the blank: " ++ questionSentence
      options := none
      correct := word.value
      word := word.value
      context := context
      difficulty := getDifficultyForWord word.value
      explanation := "The correct word is \"" ++ word.value ++ "\" which means: " ++ word.meaning }

/-- `ExerciseTemplateService.generateMatching` (lines 154–174): same
option composition as multiple choice, phrased as a match prompt. -/
def generateMatching (st : ManualDataStore) (rand : Nat → Nat) (now : Nat)
    (word : WordInput) (context : String) : Exercise :=
  let distractors := getDistractors st word.value (some context)
  let allOptions := word.meaning :: distractors.take 3
  let shuffledOptions := shuffleArray rand allOptions
  { id := "match_" ++ word.id ++ "_" ++ toString now
    type := "matching"
    question := "Match \"" ++ word.value ++ "\" with its correct definition:"
    options := some shuffledOptions
    correct := word.meaning
    word := word.value
    context := context
    difficulty := getDifficultyForWord word.value
    explanation := "\"" ++ word.value ++ "\" matches with: " ++ word.meaning }

/-- The statement template used by the true/false generator:
`"${word}" means: ${definition}`. -/
def tfStatement (value definition : String) : String :=
  "\"" ++ value ++ "\" means: " ++ definition

/-- The false-branch definition of `generateTrueFalse`:
`distractors[0] || 'an incorrect definition'` (JavaScript truthiness:
a missing or empty first distractor falls back to the literal). -/
def tfFalseDefinition (st : ManualDataStore) (word : WordInput) (context : String) : String :=
  match (getDistractors st word.value (some context)).head? with
  | some d => if jsTruthy d then d else "an incorrect definition"
  | none => "an incorrect definition"

/-- `ExerciseTemplateService.generateTrueFalse` (lines 179–208);
`isTrue` embeds the `Math.random() > 0.5` coin. -/
def generateTrueFalse (st : ManualDataStore) (isTrue : Bool) (now : Nat)
    (word : WordInput) (context : String) : Exercise :=
  let statement :=
    if isTrue then tfStatement word.value word.meaning
    else tfStatement word.value (tfFalseDefinition st word context)
  let correctAnswer := if isTrue then "True" else "False"
  { id := "tf_" ++ word.id ++ "_" ++ toString now
    type := "true_false"
    question := "True or False: " ++ statement
    options := some ["True", "False"]
    correct := correctAnswer
    word := word.value
    context := context
    difficulty := getDifficultyForWord word.value
    explanation := "The correct answer is " ++ correctAnswer ++ ". \"" ++ word.value ++
      "\" means: " ++ word.meaning }

/-- `ExerciseTemplateService.generateSentenceCompletion` (lines 213–256);
`pick` embeds the sentence-selecting `Math.random()` draw. -/
def generateSentenceCompletion (st : ManualDataStore) (pick : Nat) (now : Nat)
    (word : WordInput) (context : String) : Exercise :=
  let sentences := getSentenceExamples st word.value (some context)
  let fallback : Exercise :=
    { id := "sc_" ++ word.id ++ "_" ++ toString now
      type := "sentence_completion"
      question := "Use \"" ++ word.value ++ "\" in a sentence that demonstrates its meaning: " ++
        word.meaning
      options := none
      correct := word.value
      word := word.value
      context := context
      difficulty := getDifficultyForWord word.value
      explanation := "Sample usage: The word \"" ++ word.value ++ "\" can be used to express " ++
        word.meaning }
  match sentences with
  | [] => fallback
  | s0 :: srest =>
    let sentence := (s0 :: srest).getD (pick % (s0 :: srest).length) s0
    let ws := sentence.sentence.splitOn " "
    match ws.findIdx? (fun w => strIncludes (jsToLower w) (jsToLower word.value)) with
    | none => fallback
    | some wordIndex =>
      let incompleteSentence :=
        String.intercalate " "
          (ws.enum.map (fun p => if p.1 = wordIndex then "_____" else p.2))
      { id := "sc_" ++ word.id ++ "_" ++ toString now
        type := "sentence_completion"
        question := "Complete this sentence: " ++ incompleteSentence
        options := none
        correct := word.value
        word := word.value
        context := context
        difficulty := getDifficultyForWord word.value
        explanation := "The complete sentence is: " ++ sentence.sentence }

/-- `ExerciseTemplateService.generateExerciseForWord` (lines 56–81).  The
random type pick `exerciseTypes[Math.floor(Math.random() * length)]` is
embedded through `r 0`; the chosen generator consumes the rest of the
stream.  The TypeScript return type is `Exercise | null`, but every
branch of the switch — the unknown-type default included — returns a
generated exercise, so the result is always `some`. -/
def generateExerciseForWord (st : ManualDataStore) (r : Nat → Nat) (now : Nat)
    (word : WordInput) (context : String) (exerciseTypes : List String) : Option Exercise :=
  let idx := if exerciseTypes.length = 0 then 0 else r 0 % exerciseTypes.length
  some <|
    match exerciseTypes[idx]? with
    | some "multiple_choice" => generateMultipleChoice st (fun k => r (k + 1)) now word context
    | some "fill_in_blank" => generateFillInBlank st (r 1) now word context
    | some "matching" => generateMatching st (fun k => r (k + 1)) now word context
    | some "true_false" => generateTrueFalse st (r 1 % 2 = 0) now word context
    | some "sentence_completion" => generateSentenceCompletion st (r 1) now word context
    | some _ => generateMultipleChoice st (fun k => r (k + 1)) now word context
    | none => generateMultipleChoice st (fun k => r (k + 1)) now word context

/-- `ExerciseTemplateService.generateExercises` (lines 25–51): one
generation attempt per word, keeping the non-null results (`rs` supplies
each word its own random stream). -/
def generateExercises (st : ManualDataStore) (rs : Nat → Nat → Nat) (now : Nat)
    (words : List WordInput) (context : String) (exerciseTypes : List String) : List Exercise :=
  match words with
  | [] => []
  | w :: ws =>
    match generateExerciseForWord st (rs 0) now w context exerciseTypes with
    | some e => e :: generateExercises st (fun k => rs (k + 1)) now ws context exerciseTypes
    | none => generateExercises st (fun k => rs (k + 1)) now ws context exerciseTypes

/-- The `{isCorrect, explanation, feedback}` result shape shared by the
exercise-layer and word-service answer validators. -/
structure ValidationResult where
  isCorrect : Bool
  explanation : String
  feedback : String
deriving Repr, DecidableEq

/-- `ExerciseTemplateService.normalizeAnswer` (lines 303–305): trim then
lower-case. -/
def normalizeAnswer (answer : String) : String :=
  jsToLower (jsTrim answer)

/-- `ExerciseTemplateService.validateAnswer` (lines 284–298). -/
def validateAnswer (userAnswer correctAnswer : String) (exercise : Exercise) : ValidationResult :=
  let isCorrect := normalizeAnswer userAnswer == normalizeAnswer correctAnswer
  { isCorrect := isCorrect
    explanation :=
      if jsTruthy exercise.explanation then exercise.explanation
      else "The correct answer is: " ++ correctAnswer
    feedback :=
      if isCorrect then
        "Correct! \"" ++ exercise.word ++ "\" " ++
          (if jsTruthy exercise.explanation then exercise.explanation else correctAnswer)
      else "Incorrect. The right answer is: " ++ correctAnswer }

/-- `ManualWordService.validateAnswer`'s normalizer (`manualWordService.ts`,
lines 67–68): trim, lower-case, then drop every character that is neither
`\w` nor `\s`. -/
def wsNormalizeAnswer (answer : String) : String :=
  ⟨(jsToLower (jsTrim answer)).data.filter (fun c => isWordChar c || jsWhitespace c)⟩

/-- `ManualWordService.validateAnswer` (lines 59–100).  The
`normalizedUser.length > normalizedCorrect.length * 0.7` comparison is
embedded exactly as the double comparison: the left side (a string
length) is an exact double, the right side is the double-rounded product
`jsTimes07`, tested via the equivalent integer form `jsGtTimes07`. -/
def wsValidateAnswer (userAnswer correctAnswer : String) : ValidationResult :=
  let normalizedUser := wsNormalizeAnswer userAnswer
  let normalizedCorrect := wsNormalizeAnswer correctAnswer
  let isExactMatch := normalizedUser == normalizedCorrect
  let isPartialMatch := strIncludes normalizedUser normalizedCorrect
    || strIncludes normalizedCorrect normalizedUser
  let isCorrect := isExactMatch
    || (isPartialMatch && jsGtTimes07 normalizedUser.length normalizedCorrect.length)
  { isCorrect := isCorrect
    explanation :=
      if isCorrect then "Correct! \"" ++ correctAnswer ++ "\" is the right answer."
      else if isPartialMatch then
        "Close, but not quite right. The correct answer is \"" ++ correctAnswer ++ "\"."
      else "Incorrect. The correct answer is \"" ++ correctAnswer ++ "\"."
    feedback :=
      if isCorrect then "Well done! Your answer \"" ++ userAnswer ++ "\" is correct."
      else if isPartialMatch then
        "You're on the right track with \"" ++ userAnswer ++ "\", but the exact answer is \"" ++
          correctAnswer ++ "\"."
      else "Not quite. Your answer \"" ++ userAnswer ++ "\" doesn't match \"" ++ correctAnswer ++
        "\". Try again!" }

/-- `SentenceService.getSentencesForWords` (`sentenceService.ts`, lines
66–87), restricted to a single word: context-filtered examples, further
filtered by difficulty when one is supplied (truthy). -/
def sentencesForWord (st : ManualDataStore) (context : Option String)
    (difficulty : Option String) (w : String) : List SentenceExample :=
  let sentences := getSentenceExamples st w context
  match difficulty with
  | some d => if jsTruthy d then sentences.filter (fun s => s.difficulty == d) else sentences
  | none => sentences

/-- `SentenceService.generateIntroSentence` (lines 278–290). -/
def generateIntroSentence (context : String) : String :=
  if context = "business" then "In the business world, understanding key terminology is essential."
  else if context = "daily" then "In our everyday lives, we encounter many important concepts."
  else if context = "technology" then
    "Modern technology relies on specific terminology that's important to understand."
  else if context = "sports" then "Sports and athletic activities involve specialized vocabulary."
  else if context = "geography" then
    "Understanding geographical terms helps us describe the world around us."
  else if context = "academic" then "Academic study requires familiarity with specialized vocabulary."
  else "Learning new vocabulary helps us communicate more effectively."

/-- `SentenceService.generateConclusionSentence` (lines 292–304). -/
def generateConclusionSentence (context : String) : String :=
  if context = "business" then "These terms form the foundation of business communication."
  else if context = "daily" then "These words help us express ourselves in daily conversations."
  else if context = "technology" then
    "Understanding these terms is key to navigating the digital world."
  else if context = "sports" then "This vocabulary is essential for discussing athletic activities."
  else if context = "geography" then
    "These terms help us describe and understand our physical world."
  else if context = "academic" then "This vocabulary is fundamental for academic success."
  else "Mastering these words will improve your communication skills."

/-- `SentenceService.generateTitle` (lines 306–318). -/
def generateTitle (context : String) : String :=
  if context = "business" then "Business Vocabulary in Context"
  else if context = "daily" then "Everyday English Conversations"
  else if context = "technology" then "Technology Terms and Usage"
  else if context = "sports" then "Sports and Athletic Vocabulary"
  else if context = "geography" then "Geographical Terms and Descriptions"
  else if context = "academic" then "Academic Vocabulary in Practice"
  else "Vocabulary in Context"

/-- The `{value, meaning}` word shape consumed by the passage composer. -/
structure WordMeaning where
  value : String
  meaning : String
deriving Repr, DecidableEq

/-- An entry of `highlighted_words`. -/
structure Highlighted where
  word : String
  definition : String
  position : Nat
deriving Repr, DecidableEq

/-- `sentenceService.ts` — the `ReadingPassage` record. -/
structure ReadingPassage where
  title : String
  content : String
  word_count : Nat
  reading_time_minutes : Nat
  highlighted_words : List Highlighted
  difficulty : String
  context : String
deriving Repr, DecidableEq

/-- The per-word body of `generateReadingPassage`'s loop (lines 119–145):
threads the growing passage text, the `currentPosition` cursor and the
accumulated highlights. -/
def passageLoop (st : ManualDataStore) (context difficulty : String) :
    List WordMeaning → String → Nat → List Highlighted → String × List Highlighted
  | [], content, _, acc => (content, acc)
  | w :: ws, content, currentPosition, acc =>
    match sentencesForWord st (some context) (some difficulty) w.value with
    | [] => passageLoop st context difficulty ws content currentPosition acc
    | sentence :: _ =>
      let acc2 :=
        match findWordMatchCI sentence.sentence w.value with
        | some matched =>
          acc ++ [⟨w.value, w.meaning,
            currentPosition + (strIndexOf sentence.sentence matched).getD 0⟩]
        | none => acc
      let content2 := content ++ sentence.sentence ++ " "
      passageLoop st context difficulty ws content2 content2.length acc2

/-- `Math.ceil(wordCount / 200)` on naturals. -/
def ceilDiv200 (wordCount : Nat) : Nat :=
  (wordCount + 199) / 200

/-- `SentenceService.generateReadingPassage` (lines 92–164). -/
def generateReadingPassage (st : ManualDataStore) (words : List WordMeaning)
    (context : String) (difficulty : String) : ReadingPassage :=
  let intro := generateIntroSentence context
  let loopOut := passageLoop st context difficulty words (intro ++ " ") (intro.length + 1) []
  let passageContent := loopOut.1 ++ generateConclusionSentence context
  let wordCount := jsSplitWsCount passageContent
  { title := generateTitle context
    content := jsTrim passageContent
    word_count := wordCount
    reading_time_minutes := ceilDiv200 wordCount
    highlighted_words := loopOut.2
    difficulty := difficulty
    context := context }

/-- `manualWordService.ts` — the `ReadingResult` record. -/
structure ReadingResult where
  title : String
  content : String
  word_count : Nat
  reading_time_minutes : Nat
  highlighted_words : List Highlighted
  list_name : String
  list_context : String
  level : String
  words_included : Nat
  total_words_in_list : Nat
deriving Repr, DecidableEq

/-- `ManualWordService.generateLightReading` (`manualWordService.ts`,
lines 164–191). -/
def generateLightReading (st : ManualDataStore) (words : List WordMeaning)
    (context : String) (level : String) : ReadingResult :=
  let readingPassage := generateReadingPassage st words context level
  { title := readingPassage.title
    content := readingPassage.content
    word_count := readingPassage.word_count
    reading_time_minutes := readingPassage.reading_time_minutes
    highlighted_words := readingPassage.highlighted_words
    list_name := context ++ " Vocabulary"
    list_context := context
    level := readingPassage.difficulty
    words_included := readingPassage.highlighted_words.length
    total_words_in_list := words.length }

/-- The predicate under which `generateReadingPassage` actually records a
highlight for a requested word: the context- and difficulty-filtered
sentence list is non-empty and its first sentence matches the word with a
case-insensitive whole-word match. -/
def includedInPassage (st : ManualDataStore) (context difficulty : String)
    (w : WordMeaning) : Bool :=
  match sentencesForWord st (some context) (some difficulty) w.value with
  | [] => false
  | sentence :: _ => (findWordMatchCI sentence.sentence w.value).isSome

/-- The sentence-missing warning of `DataLoader.validateDataIntegrity`
(`part_004`, line 140). -/
def noSentencesWarning (word : String) : String :=
  "Word \"" ++ word ++ "\" has no example sentences"

/-- The insufficient-distractors warning (line 154). -/
def insufficientDistractorsWarning (word : String) (n : Nat) : String :=
  "Word \"" ++ word ++ "\" has insufficient distractors (" ++ toString n ++ "/3)"

/-- The missing-definition error (line 160). -/
def noDefinitionError (word : String) : String :=
  "No definition found for word \"" ++ word ++ "\""

/-- The missing-template warning of `validateExerciseTemplates` (line 316). -/
def noTemplatesWarning (context : String) : String :=
  "No exercise templates found for context \"" ++ context ++ "\""

/-- `DataLoader.validateExerciseTemplates`'s hard-coded template list
(line 312). -/
def knownTemplates : List String :=
  ["business", "daily", "technology", "sports"]

/-- JavaScript `Set.add` preserving insertion order. -/
def setAdd (s : List String) (x : String) : List String :=
  if s.contains x then s else s ++ [x]

/-- Insertion into a `≤`-sorted list of strings. -/
def insertSorted (x : String) : List String → List String
  | [] => [x]
  | y :: ys => if x ≤ y then x :: y :: ys else y :: insertSorted x ys

/-- `Array.sort()` on strings (lexicographic). -/
def sortStrings (l : List String) : List String :=
  l.foldr insertSorted []

/-- The accumulator threaded through `validateDataIntegrity`'s word loop. -/
structure IntegrityAcc where
  errors : List String
  warnings : List String
  wordsWithSentences : Nat
  wordsWithSimilar : Nat
  wordsWithDistractions : Nat
  contextsFound : List String
deriving Repr, DecidableEq

/-- The aggregate statistics block of `DataValidationResult`. -/
structure ValidationStats where
  totalWords : Nat
  wordsWithSentences : Nat
  wordsWithSimilar : Nat
  wordsWithDistractions : Nat
  contextsFound : List String
deriving Repr, DecidableEq

/-- `part_004` — the `DataValidationResult` record. -/
structure DataValidationResult where
  isValid : Bool
  errors : List String
  warnings : List String
  stats : ValidationStats
deriving Repr, DecidableEq

/-- One iteration of `validateDataIntegrity`'s `for (const word of
allWords)` loop (`part_004`, lines 132–162). -/
def integrityStep (st : ManualDataStore) (acc : IntegrityAcc) (word : String) : IntegrityAcc :=
  let sentences := getSentenceExamples st word none
  let acc1 :=
    if sentences.length > 0 then
      { acc with
        wordsWithSentences := acc.wordsWithSentences + 1
        contextsFound := sentences.foldl (fun cf s => setAdd cf s.context) acc.contextsFound }
    else { acc with warnings := acc.warnings ++ [noSentencesWarning word] }
  let similar := getSimilarWords st word
  let acc2 :=
    if similar.length > 0 then { acc1 with wordsWithSimilar := acc1.wordsWithSimilar + 1 }
    else acc1
  let distractors := getDistractors st word none
  let acc3 :=
    if distractors.length ≥ 3 then
      { acc2 with wordsWithDistractions := acc2.wordsWithDistractions + 1 }
    else
      { acc2 with
        warnings := acc2.warnings ++ [insufficientDistractorsWarning word distractors.length] }
  let definition := getDefinition st word none
  if strIncludes definition "Definition not found" then
    { acc3 with errors := acc3.errors ++ [noDefinitionError word] }
  else acc3

/-- `DataLoader.validateDataIntegrity` (`part_004`, lines 121–184).
`validateOrphanedSentences` is a no-op in the source;
`validateExerciseTemplates` appends a warning per context without a
hard-coded template file. -/
def validateDataIntegrity (st : ManualDataStore) : DataValidationResult :=
  let allWords := getAllWords st
  let acc := allWords.foldl (integrityStep st) ⟨[], [], 0, 0, 0, []⟩
  let warnings :=
    acc.warnings ++
      (acc.contextsFound.filter (fun c => !(knownTemplates.contains c))).map noTemplatesWarning
  { isValid := acc.errors.isEmpty
    errors := acc.errors
    warnings := warnings
    stats :=
      ⟨allWords.length, acc.wordsWithSentences, acc.wordsWithSimilar,
        acc.wordsWithDistractions, sortStrings acc.contextsFound⟩ }

/-- `part_004` — the `DataLoadStats` record (load-time statistics). -/
structure DataLoadStats where
  definitionsLoaded : Nat
  sentencesLoaded : Nat
  similarWordsLoaded : Nat
  distractorsLoaded : Nat
  loadTime : Nat
  errors : List String
deriving Repr, DecidableEq

deriving instance DecidableEq for Except

/-- Observable trace of one `initializeWithRetry` run: the attempt numbers
tried, the backoff delays awaited between attempts, and the outcome. -/
structure RetryTrace where
  attempts : List Nat
  delays : List Nat
  result : Except String DataLoadStats
deriving Repr, DecidableEq

/-- The exponential backoff delay of `initializeWithRetry` (line 247):
`Math.min(1000 * Math.pow(2, attempt - 1), 5000)`. -/
def backoffDelay (attempt : Nat) : Nat :=
  min (1000 * 2 ^ (attempt - 1)) 5000

/-- The retry loop of `DataLoader.initializeWithRetry` (`part_004`, lines
235–255).  `outcomes k` is what the `k`-th `loadAllData()` call does:
return statistics or throw an error message.  A failed attempt strictly
below `maxRetries` waits `backoffDelay attempt` before the next one; after
the last failure the loop exits and throws the retry-count summary built
from `lastError` (`undefined` when no attempt ran). -/
def retryLoop (outcomes : Nat → Except String DataLoadStats) (lastError : Option String)
    (attempt maxRetries : Nat) : RetryTrace :=
  if attempt > maxRetries then
    ⟨[], [],
      .error ("Failed to load data after " ++ toString maxRetries ++
        " attempts. Last error: " ++ lastError.getD "undefined")⟩
  else
    match outcomes attempt with
    | .ok stats => ⟨[attempt], [], .ok stats⟩
    | .error e =>
      let rest := retryLoop outcomes (some e) (attempt + 1) maxRetries
      if attempt < maxRetries then
        ⟨attempt :: rest.attempts, backoffDelay attempt :: rest.delays, rest.result⟩
      else
        ⟨attempt :: rest.attempts, rest.delays, rest.result⟩
termination_by maxRetries + 1 - attempt

/-- `DataLoader.initializeWithRetry`: run the retry loop from attempt 1. -/
def initializeWithRetry (outcomes : Nat → Except String DataLoadStats)
    (maxRetries : Nat) : RetryTrace :=
  retryLoop outcomes none 1 maxRetries

/-- Store states reachable through the service's own mutations: every
write path lower-cases its key (`loadDefinitions`, `addDefinition`,
`addAdminDefinition`, `updateDefinition`, `removeDefinition`,
`loadSentences`/`addSentenceExamples`, `loadSimilarWords`,
`loadDistractors`). -/
inductive Reachable : ManualDataStore → Prop where
  | empty : Reachable ManualDataStore.empty
  | setDefinition (st : ManualDataStore) (d : Definition) : Reachable st →
      Reachable { st with definitionsDB := mapSet st.definitionsDB (jsToLower d.word) d }
  | removeDefinition (st : ManualDataStore) (w : String) : Reachable st →
      Reachable { st with definitionsDB := mapDelete st.definitionsDB (jsToLower w) }
  | setSentences (st : ManualDataStore) (w : String) (ss : List SentenceExample) :
      Reachable st →
      Reachable { st with sentencesDB := mapSet st.sentencesDB (jsToLower w) ss }
  | setSimilarWords (st : ManualDataStore) (w : String) (sw : List SimilarWord) :
      Reachable st →
      Reachable { st with similarWordsDB := mapSet st.similarWordsDB (jsToLower w) sw }
  | setDistractors (st : ManualDataStore) (k : String) (ds : List String) :
      Reachable st →
      Reachable { st with distractorsDB := mapSet st.distractorsDB (jsToLower k) ds }

/-- Spec-side word-only fallback for distractor selection: the word-only
entries when there are at least 3 of them, otherwise the 3 synthesized
generic placeholders. -/
def specWordOnlyFallback (st : ManualDataStore) (word : String) : List String :=
  let entries := (st.distractorsDB.lookup (jsToLower word)).getD []
  if entries.length ≥ 3 then entries.take 3 else generateBasicDistractors word

/-- The spec's distractor selection, written from the spec sentence:
prefer the composite context+word key when it has at least 3 entries,
else fall back to the word-only entries when at least 3, else synthesize
3 generic placeholder strings. -/
def specDistractorChoice (st : ManualDataStore) (word : String)
    (context : Option String) : List String :=
  match st.distractorsDB.lookup (contextKey word context) with
  | some entries =>
    if entries.length ≥ 3 then entries.take 3 else specWordOnlyFallback st word
  | none => specWordOnlyFallback st word

/-! Concrete objects used by counterexamples and witnesses. -/

/-- A definition whose contextual entry for `"c"` is the empty string. -/
def cexBlankContextualDef : Definition :=
  ⟨"w", "G", [("c", "")], "beginner", "noun"⟩

/-- Store holding only `cexBlankContextualDef`. -/
def cexBlankContextualStore : ManualDataStore :=
  ⟨[("w", cexBlankContextualDef)], [], [], []⟩

/-- A definition with a contextual entry under the empty-string context key. -/
def cexEmptyKeyDef : Definition :=
  ⟨"w", "G", [("", "X")], "beginner", "noun"⟩

/-- Store holding only `cexEmptyKeyDef`. -/
def cexEmptyKeyStore : ManualDataStore :=
  ⟨[("w", cexEmptyKeyDef)], [], [], []⟩

/-- Distractor store with exactly 2 curated entries for word `"bank"`
under context `"daily"` and nothing else (spec scenario C). -/
def twoCuratedStore : ManualDataStore :=
  ⟨[], [], [], [("daily_bank", ["about money", "about rivers"])]⟩

/-- The unknown word of spec scenario B. -/
def zephyrWord : WordInput :=
  ⟨"1", "zephyr", "???"⟩

/-- A word input whose meaning differs from every synthesized distractor. -/
def tfWitnessWord : WordInput :=
  ⟨"1", "breeze", "a gentle wind"⟩

/-- Sentence store for the passage-composition counterexample: the word
`"cat"` owns one example sentence that does not contain it. -/
def dogsStore : ManualDataStore :=
  ⟨[], [("cat", [⟨"Dogs are nice.", none, "daily", "intermediate"⟩])], [], []⟩

/-- The requested word of the passage-composition counterexample. -/
def catWord : WordMeaning :=
  ⟨"cat", "a small feline"⟩

/-- Load statistics returned by the succeeding attempt in scenario D. -/
def statsD : DataLoadStats :=
  ⟨5, 10, 2, 3, 42, []⟩

/-- Scenario D outcome stream: attempts 1 and 2 throw, attempt 3 succeeds. -/
def outcomesD : Nat → Except String DataLoadStats :=
  fun k => if 3 ≤ k then .ok statsD else .error ("disk error " ++ toString k)

/-- Outcome stream where every attempt throws. -/
def outcomesAllFail : Nat → Except String DataLoadStats :=
  fun k => .error ("disk error " ++ toString k)

/-- A definition whose general text contains the sentinel phrase
`Definition not found`. -/
def trapDefinition : Definition :=
  ⟨"trap", "Definition not found for sure, but this is a real stored entry", [],
    "beginner", "noun"⟩

/-- The reachable store holding only `trapDefinition` (obtained from the
empty store by one `addDefinition`). -/
def trapStore : ManualDataStore :=
  { ManualDataStore.empty with
    definitionsDB :=
      mapSet ManualDataStore.empty.definitionsDB (jsToLower trapDefinition.word) trapDefinition }

/-- A well-formed definition for the word `"cat"`. -/
def catDefinition : Definition :=
  ⟨"cat", "a small domesticated feline", [], "beginner", "noun"⟩

/-- Reachable store after adding `catDefinition` to the empty store. -/
def healthyStore1 : ManualDataStore :=
  { ManualDataStore.empty with
    definitionsDB :=
      mapSet ManualDataStore.empty.definitionsDB (jsToLower catDefinition.word) catDefinition }

/-- Reachable store after additionally loading one example sentence for
`"cat"`. -/
def healthyStore2 : ManualDataStore :=
  { healthyStore1 with
    sentencesDB :=
      mapSet healthyStore1.sentencesDB (jsToLower "cat")
        [⟨"The cat sleeps.", none, "daily", "beginner"⟩] }

/-- ASCII lower-casing is idempotent on characters. -/
theorem charToLower_idem (c : Char) : charToLower (charToLower c) = charToLower c := by
  by_cases h : 65 ≤ c.toNat ∧ c.toNat ≤ 90
  · have hv : (Char.ofNat (c.toNat + 32)).toNat = c.toNat + 32 := by
      obtain ⟨h1, h2⟩ := h
      interval_cases hc : c.toNat <;> decide
    simp only [charToLower, if_pos h, hv]
    rw [if_neg (by omega)]
  · simp only [charToLower, if_neg h]

/-- `jsToLower` is idempotent. -/
theorem jsToLower_idem (s : String) : jsToLower (jsToLower s) = jsToLower s := by
  simp only [jsToLower, List.map_map]
  congr 1
  exact List.map_congr_left (fun c _ => charToLower_idem c)

/-- C1 (amended): for every word and optional context, `getDefinition` is a
total function (never throws) resolving in the order: the non-empty stored
contextual definition when a non-empty context is provided — otherwise the
general definition when the word is present — otherwise the sentinel
not-found message, which contains the literal requested word. -/
theorem getDefinition_resolution (st : ManualDataStore) (word : String)
    (context : Option String) :
    getDefinition st word context = specDefinitionResolution st word context ∧
    ∃ pre post, notFoundMessage word = pre ++ word ++ post := by
  refine ⟨?_, "Definition not found for \"",
    "\". Please add it to the definitions database.", ?_⟩
  · cases h : st.definitionsDB.lookup (jsToLower word) with
    | none => simp [getDefinition, specDefinitionResolution, h]
    | some d =>
      cases context with
      | none => simp [getDefinition, specDefinitionResolution, specContextualHit, h]
      | some c =>
        by_cases hc : c = ""
        · simp [getDefinition, specDefinitionResolution, specContextualHit, h, hc, jsTruthy]
        · cases hv : d.contextual.lookup (jsToLower c) with
          | none =>
            simp [getDefinition, specDefinitionResolution, specContextualHit, h, hc, hv, jsTruthy]
          | some v =>
            by_cases hvv : v = ""
            · simp [getDefinition, specDefinitionResolution, specContextualHit, h, hc, hv, hvv,
                jsTruthy]
            · simp [getDefinition, specDefinitionResolution, specContextualHit, h, hc, hv, hvv,
                jsTruthy]
  · rfl

/-- C1 counterexample: a stored contextual entry that is the empty string,
or a context that is itself the empty string, is skipped by the code (the
JavaScript truthiness guard), so `getDefinition` returns the general
definition instead of the stored contextual entry the claim promises. -/
theorem getDefinition_blank_contextual_cex :
    (cexBlankContextualDef.contextual.lookup "c" = some "" ∧
      getDefinition cexBlankContextualStore "w" (some "c") = "G" ∧ "G" ≠ "") ∧
    (cexEmptyKeyDef.contextual.lookup "" = some "X" ∧
      getDefinition cexEmptyKeyStore "w" (some "") = "G" ∧ "G" ≠ "X") := by
  decide


/-- Helper: `getDistractors` always returns exactly 3 entries. -/
theorem getDistractors_length_eq_three (st : ManualDataStore) (word : String)
    (context : Option String) : (getDistractors st word context).length = 3 := by
  unfold getDistractors
  cases h : st.distractorsDB.lookup (contextKey word context) with
  | none =>
    simp only [h]
    split
    · next hge => rw [List.length_take]; omega
    · rfl
  | some specific =>
    simp only [h]
    split
    · next hge => rw [List.length_take]; omega
    · split
      · next hge => rw [List.length_take]; omega
      · rfl

/-- C2: `getDistractors` returns exactly 3 strings, chosen per the spec's
preference order (composite context+word key with at least 3 entries,
then word-only entries with at least 3, then 3 synthesized placeholders). -/
theorem getDistractors_choice (st : ManualDataStore) (word : String)
    (context : Option String) :
    (getDistractors st word context).length = 3 ∧
    getDistractors st word context = specDistractorChoice st word context := by
  refine ⟨getDistractors_length_eq_three st word context, ?_⟩
  unfold getDistractors specDistractorChoice specWordOnlyFallback
  cases h : st.distractorsDB.lookup (contextKey word context) <;> rfl


/-- C3 counterexample: with exactly 2 curated entries under the composite
key `daily_bank` and no word-only entries, `getDistractors("bank","daily")`
returns the 3 synthesized placeholders and discards both curated entries —
it does not return the 2 curated entries plus 1 filler. -/
theorem getDistractors_two_curated_cex :
    getDistractors twoCuratedStore "bank" (some "daily") =
      ["incorrect definition A", "incorrect definition B", "incorrect definition C"] ∧
    ¬ ("about money" ∈ getDistractors twoCuratedStore "bank" (some "daily")) ∧
    ¬ ("about rivers" ∈ getDistractors twoCuratedStore "bank" (some "daily")) := by
  decide

/-- C3 (amended): whenever the composite context+word key holds fewer than
3 curated entries and the word-only key also resolves to fewer than 3,
`getDistractors` ignores the curated entries entirely and returns the 3
synthesized generic placeholder strings. -/
theorem getDistractors_under_three_synthesized (st : ManualDataStore) (word : String)
    (context : Option String) (entries : List String)
    (h1 : st.distractorsDB.lookup (contextKey word context) = some entries)
    (h2 : entries.length < 3)
    (h3 : ((st.distractorsDB.lookup (jsToLower word)).getD []).length < 3) :
    getDistractors st word context = generateBasicDistractors word := by
  unfold getDistractors
  rw [h1]
  simp only
  rw [if_neg (by omega), if_neg (by omega)]

/-- Witness for the amended C3 at spec scenario C's store. -/
theorem getDistractors_under_three_synthesized_witness :
    getDistractors twoCuratedStore "bank" (some "daily") = generateBasicDistractors "bank" :=
  getDistractors_under_three_synthesized twoCuratedStore "bank" (some "daily")
    ["about money", "about rivers"] (by decide) (by decide) (by decide)


/-- C4 counterexample: spec scenario B.  The meaning of `"zephyr"`
resolves to the not-found sentinel, yet `generateExercises` still
produces one exercise for it — the word is not skipped and the result is
not the empty sequence. -/
theorem generateExercises_zephyr_cex :
    getDefinition ManualDataStore.empty "zephyr" (some "daily") = notFoundMessage "zephyr" ∧
    (generateExercises ManualDataStore.empty (fun _ _ => 0) 0 [zephyrWord] "daily"
        ["multiple_choice"]).length = 1 := by
  constructor
  · rfl
  · rfl

/-- C4 (amended): `generateExercises` never skips a word — every branch of
`generateExerciseForWord` (the unknown-type default included) returns an
exercise, so the result has exactly one exercise per input word,
regardless of whether any word's meaning is resolvable. -/
theorem generateExercises_length (st : ManualDataStore) (rs : Nat → Nat → Nat) (now : Nat)
    (words : List WordInput) (context : String) (exerciseTypes : List String) :
    (generateExercises st rs now words context exerciseTypes).length = words.length := by
  induction words generalizing rs with
  | nil => rfl
  | cons w ws ih =>
    simp only [generateExercises, generateExerciseForWord, List.length_cons]
    rw [ih]


/-- Helper: the integer comparison agrees with the rational reading of
the double-rounded product. -/
theorem jsGtTimes07_iff (u c : Nat) :
    jsGtTimes07 u c = true ↔ (u : ℚ) > jsTimes07 c := by
  unfold jsGtTimes07 jsTimes07
  by_cases h0 : c * fl07num = 0
  · simp only [h0, if_true, eq_self_iff_true, decide_eq_true_eq, gt_iff_lt]
    norm_num
  · simp only [h0, if_false, if_neg h0, decide_eq_true_eq, gt_iff_lt]
    by_cases hL : bitLen (c * fl07num) ≤ 53
    · simp only [hL, if_true, if_pos hL, decide_eq_true_eq]
      rw [div_lt_iff₀ (by positivity)]
      constructor
      · intro h; exact_mod_cast h
      · intro h; exact_mod_cast h
    · simp only [hL, if_false, if_neg hL, decide_eq_true_eq]
      rw [div_lt_iff₀ (by positivity)]
      constructor
      · intro h; push_cast; exact_mod_cast h
      · intro h; exact_mod_cast h

/-- C5 counterexample: the word-service validator accepts `"cats"` for
correct answer `"cat"` through its partial-match branch, although the two
normalized strings (trim + lower-case) differ — so validation is not the
pure normalized-equality the claim states for both layers. -/
theorem wsValidateAnswer_fuzzy_cex :
    (wsValidateAnswer "cats" "cat").isCorrect = true ∧
    normalizeAnswer "cats" ≠ normalizeAnswer "cat" := by
  decide

/-- C5 (amended): the exercise-layer `validateAnswer` reports correct
exactly on normalized (trim + lower-case) equality, with no fuzzy
matching; the word-service `validateAnswer`, however, additionally
accepts any pair whose normalized forms contain one another with the
user's length above the IEEE-754 double product `0.7 ·` the correct
answer's length. -/
theorem validateAnswer_characterization (u c : String) (e : Exercise) :
    ((validateAnswer u c e).isCorrect = true ↔ normalizeAnswer u = normalizeAnswer c) ∧
    ((wsValidateAnswer u c).isCorrect = true ↔
      (wsNormalizeAnswer u = wsNormalizeAnswer c ∨
        ((strIncludes (wsNormalizeAnswer u) (wsNormalizeAnswer c) = true ∨
            strIncludes (wsNormalizeAnswer c) (wsNormalizeAnswer u) = true) ∧
          ((wsNormalizeAnswer u).length : ℚ) > jsTimes07 (wsNormalizeAnswer c).length))) := by
  constructor
  · simp [validateAnswer]
  · simp [wsValidateAnswer, Bool.or_eq_true, Bool.and_eq_true, jsGtTimes07_iff]

/-- The float boundary the embedding must respect: the double product
`90 * 0.7` is `63 − 2⁻⁴⁷`, strictly below the exact rational `63`, so a
63-character answer contained in a 90-character one passes the length
test even though the exact comparison `10·63 > 7·90` fails. -/
theorem jsTimes07_boundary :
    jsTimes07 90 = 63 - (1 : ℚ) / 2 ^ 47 ∧
    jsGtTimes07 63 90 = true ∧ ¬ (10 * 63 > 7 * 90) := by
  have hN : 90 * fl07num = 567453553048682460 := rfl
  have hb : bitLen 567453553048682460 = 59 := rfl
  have h90 : jsTimes07 90 = 63 - (1 : ℚ) / 2 ^ 47 := by
    simp only [jsTimes07, hN, hb]
    norm_num
  exact ⟨h90, by decide, by omega⟩

/-- Helper: the statement template of the true/false exercise is
injective in the definition slot. -/
theorem tfStatement_inj (v m1 m2 : String)
    (h : "True or False: " ++ tfStatement v m1 = "True or False: " ++ tfStatement v m2) :
    m1 = m2 := by
  unfold tfStatement at h
  have hd := congrArg String.data h
  simp only [String.data_append, List.append_assoc] at hd
  have h1 := List.append_cancel_left hd
  have h2 := List.append_cancel_left h1
  have h3 := List.append_cancel_left h2
  have h4 := List.append_cancel_left h3
  exact String.ext h4


/-- C6: a generated true/false exercise is internally consistent — options
are always `["True", "False"]`, and (whenever the meaning differs from the
substituted distractor, i.e. the distractor really is a distractor) the
answer is `True` exactly when the statement embeds the word's correct
meaning and `False` exactly when it embeds the first distractor instead:
statement and answer are produced atomically from the same coin. -/
theorem generateTrueFalse_consistent (st : ManualDataStore) (isTrue : Bool) (now : Nat)
    (w : WordInput) (context : String)
    (hne : w.meaning ≠ tfFalseDefinition st w context) :
    (generateTrueFalse st isTrue now w context).options = some ["True", "False"] ∧
    ((generateTrueFalse st isTrue now w context).correct = "True" ↔
      (generateTrueFalse st isTrue now w context).question =
        "True or False: " ++ tfStatement w.value w.meaning) ∧
    ((generateTrueFalse st isTrue now w context).correct = "False" ↔
      (generateTrueFalse st isTrue now w context).question =
        "True or False: " ++ tfStatement w.value (tfFalseDefinition st w context)) := by
  have hq : ("True or False: " ++ tfStatement w.value w.meaning) ≠
      ("True or False: " ++ tfStatement w.value (tfFalseDefinition st w context)) :=
    fun hcontra => hne (tfStatement_inj w.value w.meaning _ hcontra)
  cases isTrue with
  | true =>
    refine ⟨rfl, ?_, ?_⟩
    · simp [generateTrueFalse]
    · simp only [generateTrueFalse]
      constructor
      · intro hfalse; exact absurd hfalse (by decide)
      · intro hqeq; exact absurd hqeq hq
  | false =>
    refine ⟨rfl, ?_, ?_⟩
    · simp only [generateTrueFalse]
      constructor
      · intro htrue; exact absurd htrue (by decide)
      · intro hqeq; exact absurd hqeq.symm hq
    · simp [generateTrueFalse]

/-- Witness for C6: the false branch over the empty store, where the
substituted distractor is the first synthesized placeholder. -/
theorem generateTrueFalse_consistent_witness :
    (generateTrueFalse ManualDataStore.empty false 0 tfWitnessWord "daily").options =
        some ["True", "False"] ∧
    ((generateTrueFalse ManualDataStore.empty false 0 tfWitnessWord "daily").correct = "True" ↔
      (generateTrueFalse ManualDataStore.empty false 0 tfWitnessWord "daily").question =
        "True or False: " ++ tfStatement tfWitnessWord.value tfWitnessWord.meaning) ∧
    ((generateTrueFalse ManualDataStore.empty false 0 tfWitnessWord "daily").correct = "False" ↔
      (generateTrueFalse ManualDataStore.empty false 0 tfWitnessWord "daily").question =
        "True or False: " ++
          tfStatement tfWitnessWord.value
            (tfFalseDefinition ManualDataStore.empty tfWitnessWord "daily")) :=
  generateTrueFalse_consistent ManualDataStore.empty false 0 tfWitnessWord "daily" (by decide)


/-- Helper: setting index `i` trades the old element for the new one in
the multiset of elements (stated additively to stay in `Nat`). -/
theorem count_set_trade [DecidableEq α] (l : List α) (i : Nat) (b : α) (h : i < l.length)
    (x : α) :
    (l.set i b).count x + (if l[i] = x then 1 else 0) =
      l.count x + (if b = x then 1 else 0) := by
  induction l generalizing i with
  | nil => simp at h
  | cons a t ih =>
    cases i with
    | zero =>
      simp only [List.set_cons_zero, List.count_cons, List.getElem_cons_zero, beq_iff_eq]
      split_ifs <;> omega
    | succ n =>
      have hn : n < t.length := by simpa using h
      have hrec := ih n hn
      simp only [List.set_cons_succ, List.count_cons, List.getElem_cons_succ, beq_iff_eq]
      split_ifs at hrec ⊢ <;> omega

/-- Helper: one Fisher-Yates swap step is a permutation. -/
theorem swapAt_perm (l : List α) (i j : Nat) : (swapAt l i j).Perm l := by
  classical
  unfold swapAt
  cases hi : l[i]? with
  | none => exact List.Perm.refl l
  | some a =>
    cases hj : l[j]? with
    | none => exact List.Perm.refl l
    | some b =>
      obtain ⟨hi', hia⟩ := List.getElem?_eq_some_iff.mp hi
      obtain ⟨hj', hjb⟩ := List.getElem?_eq_some_iff.mp hj
      show ((l.set i b).set j a).Perm l
      rw [List.perm_iff_count]
      intro x
      have hj'' : j < (l.set i b).length := by rw [List.length_set]; exact hj'
      have h1 := count_set_trade l i b hi' x
      have h2 := count_set_trade (l.set i b) j a hj'' x
      have hsb : (l.set i b)[j] = b := by
        rw [List.getElem_set]
        split
        · rfl
        · exact hjb
      rw [hsb] at h2
      rw [hia] at h1
      split_ifs at h1 h2 <;> omega

/-- Helper: the whole Fisher-Yates loop is a permutation. -/
theorem fyLoop_perm (rand : Nat → Nat) : ∀ (n : Nat) (l : List α), (fyLoop rand n l).Perm l := by
  intro n
  induction n with
  | zero => exact fun l => List.Perm.refl l
  | succ i ih =>
    intro l
    exact (ih (swapAt l (i + 1) (rand (i + 1) % (i + 2)))).trans
      (swapAt_perm l (i + 1) (rand (i + 1) % (i + 2)))

/-- C7: for every input list and every sequence of random draws, the
Fisher-Yates `shuffleArray` returns a permutation of its input — the same
multiset of elements (no element lost or duplicated) and the same length. -/
theorem shuffleArray_perm (rand : Nat → Nat) (l : List α) :
    (shuffleArray rand l).Perm l ∧ (shuffleArray rand l).length = l.length := by
  have hp : (shuffleArray rand l).Perm l := fyLoop_perm rand (l.length - 1) l
  exact ⟨hp, hp.length_eq⟩


/-- Helper: the retry loop past `maxRetries` throws the summary message. -/
theorem retryLoop_stop (o : Nat → Except String DataLoadStats) (le : Option String)
    (a m : Nat) (h : a > m) :
    retryLoop o le a m = ⟨[], [],
      .error ("Failed to load data after " ++ toString m ++ " attempts. Last error: " ++
        le.getD "undefined")⟩ := by
  rw [retryLoop]
  rw [if_pos h]

/-- Helper: a successful attempt stops the loop at once. -/
theorem retryLoop_ok_step (o : Nat → Except String DataLoadStats) (le : Option String)
    (a m : Nat) (s : DataLoadStats) (h : ¬ a > m) (ho : o a = .ok s) :
    retryLoop o le a m = ⟨[a], [], .ok s⟩ := by
  rw [retryLoop]
  rw [if_neg h, ho]

/-- Helper: a failed attempt strictly below `maxRetries` waits the backoff
delay and recurses with the fresh error as last error. -/
theorem retryLoop_err_step (o : Nat → Except String DataLoadStats) (le : Option String)
    (a m : Nat) (e : String) (h1 : ¬ a > m) (h2 : a < m) (ho : o a = .error e) :
    retryLoop o le a m = ⟨a :: (retryLoop o (some e) (a + 1) m).attempts,
      backoffDelay a :: (retryLoop o (some e) (a + 1) m).delays,
      (retryLoop o (some e) (a + 1) m).result⟩ := by
  rw [retryLoop]
  rw [if_neg h1, ho]
  simp only [if_pos h2]

/-- Helper: a failure on the final attempt ends the loop with the summary
wrapping that error's message. -/
theorem retryLoop_last_fail (o : Nat → Except String DataLoadStats) (le : Option String)
    (m : Nat) (e : String) (ho : o m = .error e) :
    retryLoop o le m m = ⟨[m], [],
      .error ("Failed to load data after " ++ toString m ++ " attempts. Last error: " ++ e)⟩ := by
  rw [retryLoop]
  rw [if_neg (by omega), ho]
  simp only [if_neg (by omega : ¬ m < m)]
  rw [retryLoop_stop o (some e) (m + 1) m (by omega)]
  rfl


/-- Helper: trace of a run whose first success is attempt `k`. -/
theorem retryLoop_success_trace (o : Nat → Except String DataLoadStats) (s : DataLoadStats)
    (k m : Nat) (hk : k ≤ m) (hok : o k = .ok s) :
    ∀ (d a : Nat) (le : Option String), k - a = d → a ≤ k →
      (∀ j, a ≤ j → j < k → ∃ e, o j = .error e) →
      retryLoop o le a m =
        ⟨List.range' a (k + 1 - a), (List.range' a (k - a)).map backoffDelay, .ok s⟩ := by
  intro d
  induction d with
  | zero =>
    intro a le hd ha hfail
    have hak : a = k := by omega
    subst hak
    rw [retryLoop_ok_step o le a m s (by omega) hok]
    have h1 : a + 1 - a = 1 := by omega
    have h0 : a - a = 0 := by omega
    rw [h1, h0]
    rfl
  | succ n ihd =>
    intro a le hd ha hfail
    have hak : a < k := by omega
    obtain ⟨e, hoe⟩ := hfail a (le_refl a) hak
    rw [retryLoop_err_step o le a m e (by omega) (by omega) hoe]
    rw [ihd (a + 1) (some e) (by omega) (by omega) (fun j hj1 hj2 => hfail j (by omega) hj2)]
    have hr1 : k + 1 - a = (k + 1 - (a + 1)) + 1 := by omega
    have hr2 : k - a = (k - (a + 1)) + 1 := by omega
    rw [hr1, hr2, List.range'_succ, List.range'_succ]
    rfl

/-- Helper: trace of a run in which every attempt up to `maxRetries` fails. -/
theorem retryLoop_allfail_trace (o : Nat → Except String DataLoadStats) (m : Nat) :
    ∀ (d a : Nat) (le : Option String), m - a = d → a ≤ m →
      (∀ j, a ≤ j → j ≤ m → ∃ e, o j = .error e) →
      ∃ e, o m = .error e ∧
        retryLoop o le a m =
          ⟨List.range' a (m + 1 - a), (List.range' a (m - a)).map backoffDelay,
            .error ("Failed to load data after " ++ toString m ++ " attempts. Last error: " ++
              e)⟩ := by
  intro d
  induction d with
  | zero =>
    intro a le hd ha hfail
    have hak : a = m := by omega
    subst hak
    obtain ⟨e, hoe⟩ := hfail a (le_refl a) (le_refl a)
    refine ⟨e, hoe, ?_⟩
    rw [retryLoop_last_fail o le a e hoe]
    have h1 : a + 1 - a = 1 := by omega
    have h0 : a - a = 0 := by omega
    rw [h1, h0]
    rfl
  | succ n ihd =>
    intro a le hd ha hfail
    have hak : a < m := by omega
    obtain ⟨e0, hoe0⟩ := hfail a (le_refl a) (by omega)
    obtain ⟨e, hoe, hrec⟩ :=
      ihd (a + 1) (some e0) (by omega) (by omega) (fun j hj1 hj2 => hfail j (by omega) hj2)
    refine ⟨e, hoe, ?_⟩
    rw [retryLoop_err_step o le a m e0 (by omega) hak hoe0, hrec]
    have hr1 : m + 1 - a = (m + 1 - (a + 1)) + 1 := by omega
    have hr2 : m - a = (m - (a + 1)) + 1 := by omega
    rw [hr1, hr2, List.range'_succ, List.range'_succ]
    rfl

/-- Helper: the loop makes at most `maxRetries + 1 - attempt` attempts. -/
theorem retryLoop_attempts_le (o : Nat → Except String DataLoadStats) (m : Nat) :
    ∀ (d a : Nat) (le : Option String), m + 1 - a = d →
      (retryLoop o le a m).attempts.length ≤ m + 1 - a := by
  intro d
  induction d with
  | zero =>
    intro a le hd
    rw [retryLoop_stop o le a m (by omega)]
    simp
  | succ n ihd =>
    intro a le hd
    have ham : a ≤ m := by omega
    cases ho : o a with
    | ok s =>
      rw [retryLoop_ok_step o le a m s (by omega) ho]
      simp only [List.length_cons, List.length_nil]
      omega
    | error e =>
      by_cases hlt : a < m
      · rw [retryLoop_err_step o le a m e (by omega) hlt ho]
        have := ihd (a + 1) (some e) (by omega)
        simp only [List.length_cons]
        omega
      · have ham' : a = m := by omega
        subst ham'
        rw [retryLoop_last_fail o le a e ho]
        simp only [List.length_cons, List.length_nil]
        omega


/-- C8: `initializeWithRetry(maxRetries)` attempts the load at most
`maxRetries` times; between failed attempt `k` and attempt `k+1` it waits
`min(1000·2^(k−1), 5000)` milliseconds; the first successful attempt's
statistics are returned with no further attempts; and when all attempts
fail it throws an error whose message includes the attempt count and the
last attempt's error message. -/
theorem initializeWithRetry_spec (o : Nat → Except String DataLoadStats) (m : Nat) :
    (initializeWithRetry o m).attempts.length ≤ m ∧
    (∀ k s, 1 ≤ k → k ≤ m → (∀ j, 1 ≤ j → j < k → ∃ e, o j = .error e) → o k = .ok s →
      (initializeWithRetry o m).result = .ok s ∧
      (initializeWithRetry o m).attempts = List.range' 1 k ∧
      (initializeWithRetry o m).delays =
        (List.range' 1 (k - 1)).map (fun a => min (1000 * 2 ^ (a - 1)) 5000)) ∧
    ((∀ j, 1 ≤ j → j ≤ m → ∃ e, o j = .error e) → 1 ≤ m →
      ∃ e, o m = .error e ∧
        (initializeWithRetry o m).result =
          .error ("Failed to load data after " ++ toString m ++ " attempts. Last error: " ++
            e) ∧
        (initializeWithRetry o m).delays =
          (List.range' 1 (m - 1)).map (fun a => min (1000 * 2 ^ (a - 1)) 5000)) := by
  refine ⟨?_, ?_, ?_⟩
  · have h := retryLoop_attempts_le o m (m + 1 - 1) 1 none (by omega)
    simpa [initializeWithRetry] using h
  · intro k s hk1 hkm hfail hok
    have h := retryLoop_success_trace o s k m hkm hok (k - 1) 1 none (by omega) hk1 hfail
    unfold initializeWithRetry
    rw [h]
    refine ⟨rfl, ?_, ?_⟩
    · have : k + 1 - 1 = k := by omega
      rw [this]
    · rfl
  · intro hfail hm
    obtain ⟨e, hoe, h⟩ := retryLoop_allfail_trace o m (m - 1) 1 none (by omega) hm hfail
    refine ⟨e, hoe, ?_, ?_⟩
    · unfold initializeWithRetry
      rw [h]
    · unfold initializeWithRetry
      rw [h]
      rfl

/-- Witness for C8: spec scenario D (two failures, success on attempt 3)
and a three-failure run of the same shape. -/
theorem initializeWithRetry_spec_witness :
    ((initializeWithRetry outcomesD 3).result = .ok statsD ∧
      (initializeWithRetry outcomesD 3).attempts = [1, 2, 3] ∧
      (initializeWithRetry outcomesD 3).delays = [1000, 2000]) ∧
    (initializeWithRetry outcomesAllFail 2).result =
      .error ("Failed to load data after 2 attempts. Last error: disk error 2") := by
  constructor
  · have h := (initializeWithRetry_spec outcomesD 3).2.1 3 statsD (by omega) (by omega)
      (fun j hj1 hj2 => ⟨"disk error " ++ toString j, by interval_cases j <;> rfl⟩) rfl
    obtain ⟨h1, h2, h3⟩ := h
    refine ⟨h1, ?_, ?_⟩
    · rw [h2]; rfl
    · rw [h3]; rfl
  · obtain ⟨e, hoe, hres, hdel⟩ := (initializeWithRetry_spec outcomesAllFail 2).2.2
      (fun j hj1 hj2 => ⟨"disk error " ++ toString j, rfl⟩) (by omega)
    have h2 : Except.error (α := DataLoadStats) "disk error 2" = Except.error e := hoe
    injection h2 with h3
    rw [hres, ← h3]
    rfl


/-- Helper: the passage loop appends one highlight exactly for each word
satisfying `includedInPassage`. -/
theorem passageLoop_highlights (st : ManualDataStore) (context difficulty : String)
    (ws : List WordMeaning) :
    ∀ (content : String) (pos : Nat) (acc : List Highlighted),
      (passageLoop st context difficulty ws content pos acc).2.length =
        acc.length + ws.countP (includedInPassage st context difficulty) := by
  induction ws with
  | nil => intro content pos acc; simp [passageLoop]
  | cons w tail ih =>
    intro content pos acc
    rw [List.countP_cons]
    unfold passageLoop
    cases hs : sentencesForWord st (some context) (some difficulty) w.value with
    | nil =>
      rw [ih]
      simp [includedInPassage, hs]
    | cons s rest =>
      cases hm : findWordMatchCI s.sentence w.value with
      | none =>
        rw [ih]
        simp [includedInPassage, hs, hm]
      | some matched =>
        rw [ih]
        simp [includedInPassage, hs, hm]
        omega

/-- C9 (amended): over any store and word list, the reading result reports
`total_words_in_list` = number of requested words; `words_included` =
number of requested words whose context- and difficulty-filtered sentence
list is non-empty **and** whose first such sentence actually contains the
word as a case-insensitive whole-word match; and `reading_time_minutes` =
ceil(word_count / 200) (characterized as the least `n` with
`word_count ≤ 200·n`). -/
theorem generateLightReading_counts (st : ManualDataStore) (words : List WordMeaning)
    (context level : String) :
    (generateLightReading st words context level).total_words_in_list = words.length ∧
    (generateLightReading st words context level).words_included =
      words.countP (includedInPassage st context level) ∧
    (generateLightReading st words context level).word_count ≤
      200 * (generateLightReading st words context level).reading_time_minutes ∧
    (∀ n, (generateLightReading st words context level).word_count ≤ 200 * n →
      (generateLightReading st words context level).reading_time_minutes ≤ n) := by
  refine ⟨rfl, ?_, ?_, ?_⟩
  · have h := passageLoop_highlights st context level words
      (generateIntroSentence context ++ " ") ((generateIntroSentence context).length + 1) []
    simpa [generateLightReading, generateReadingPassage] using h
  · show jsSplitWsCount _ ≤ 200 * ceilDiv200 (jsSplitWsCount _)
    unfold ceilDiv200
    omega
  · intro n
    show jsSplitWsCount _ ≤ 200 * n → ceilDiv200 (jsSplitWsCount _) ≤ n
    unfold ceilDiv200
    omega

set_option maxRecDepth 8000 in
/-- C9 counterexample: the word `"cat"` has an example sentence for the
requested context, but the sentence does not contain the word, so no
highlight is recorded: `words_included` is 0 while the claim's count of
words with at least one example sentence is 1. -/
theorem generateLightReading_words_included_cex :
    (generateLightReading dogsStore [catWord] "daily" "intermediate").words_included ≠
      [catWord].countP
        (fun w => !(getSentenceExamples dogsStore w.value (some "daily")).isEmpty) ∧
    (generateLightReading dogsStore [catWord] "daily" "intermediate").words_included = 0 ∧
    [catWord].countP
        (fun w => !(getSentenceExamples dogsStore w.value (some "daily")).isEmpty) = 1 := by
  refine ⟨?_, ?_, ?_⟩ <;> decide

set_option maxRecDepth 8000 in
/-- Witness for C9 at the counterexample store (hypothesis of the final
conjunct discharged at a concrete bound). -/
theorem generateLightReading_counts_witness :
    (generateLightReading dogsStore [catWord] "daily" "intermediate").total_words_in_list = 1 ∧
    (generateLightReading dogsStore [catWord] "daily" "intermediate").reading_time_minutes ≤ 1 := by
  obtain ⟨h1, _h2, _h3, h4⟩ := generateLightReading_counts dogsStore [catWord] "daily" "intermediate"
  exact ⟨h1, h4 1 (by decide)⟩


/-- Helper: one integrity-loop iteration over a word whose definition text
does not contain the sentinel phrase adds no error, and adds exactly the
missing-sentences warning when the word has no sentences — the
insufficient-distractors branch never fires because `getDistractors`
always yields 3 entries. -/
theorem integrityStep_clean (st : ManualDataStore) (acc : IntegrityAcc) (w : String)
    (hw : strIncludes (getDefinition st w none) "Definition not found" = false) :
    (integrityStep st acc w).errors = acc.errors ∧
    (integrityStep st acc w).warnings = acc.warnings ++
      (if (getSentenceExamples st w none).length = 0 then [noSentencesWarning w] else []) := by
  unfold integrityStep
  simp only [getDistractors_length_eq_three st w none, hw]
  by_cases hs : (getSentenceExamples st w none).length = 0
  · have hs0 : ¬ 0 < (getSentenceExamples st w none).length := by omega
    by_cases hsim : 0 < (getSimilarWords st w).length <;> simp [hs, hs0, hsim]
  · have hs0 : 0 < (getSentenceExamples st w none).length := by omega
    by_cases hsim : 0 < (getSimilarWords st w).length <;> simp [hs, hs0, hsim]

/-- Helper: across the whole loop, the errors stay empty and the warnings
are exactly the missing-sentences warnings. -/
theorem integrity_foldl_clean (st : ManualDataStore) :
    ∀ (ws : List String) (acc : IntegrityAcc),
      (∀ w ∈ ws, strIncludes (getDefinition st w none) "Definition not found" = false) →
      (ws.foldl (integrityStep st) acc).errors = acc.errors ∧
      (ws.foldl (integrityStep st) acc).warnings = acc.warnings ++
        ws.flatMap (fun w =>
          if (getSentenceExamples st w none).length = 0 then [noSentencesWarning w] else []) := by
  intro ws
  induction ws with
  | nil => intro acc hclean; simp
  | cons w tail ih =>
    intro acc hclean
    have hw := hclean w (List.mem_cons_self w tail)
    have htail := fun x hx => hclean x (List.mem_cons_of_mem w hx)
    obtain ⟨he, hwarn⟩ := integrityStep_clean st acc w hw
    obtain ⟨ihe, ihwarn⟩ := ih (integrityStep st acc w) htail
    constructor
    · rw [List.foldl_cons, ihe, he]
    · rw [List.foldl_cons, ihwarn, hwarn]
      simp [List.append_assoc]

/-- C10 (amended): on every reachable store none of whose words has a
definition text containing the sentinel phrase `Definition not found`,
`validateDataIntegrity` reports `isValid` with an empty error list, and
its warnings consist solely of missing-sentence warnings followed by
missing-template warnings — the insufficient-distractors warning branch is
unreachable because `getDistractors` always returns exactly 3 entries. -/
theorem validateDataIntegrity_clean (st : ManualDataStore)
    (hreach : Reachable st)
    (hclean : ∀ w ∈ getAllWords st,
      strIncludes (getDefinition st w none) "Definition not found" = false) :
    (validateDataIntegrity st).errors = [] ∧
    (validateDataIntegrity st).isValid = true ∧
    ∃ tail, (validateDataIntegrity st).warnings =
        (getAllWords st).flatMap (fun w =>
          if (getSentenceExamples st w none).length = 0 then [noSentencesWarning w] else []) ++
          tail ∧
      ∀ s ∈ tail, ∃ c, s = noTemplatesWarning c := by
  obtain ⟨he, hwarn⟩ :=
    integrity_foldl_clean st (getAllWords st) ⟨[], [], 0, 0, 0, []⟩ hclean
  refine ⟨?_, ?_, ?_⟩
  · simp [validateDataIntegrity, he]
  · simp [validateDataIntegrity, he]
  · refine ⟨(((getAllWords st).foldl (integrityStep st)
        ⟨[], [], 0, 0, 0, []⟩).contextsFound.filter
          (fun c => !(knownTemplates.contains c))).map noTemplatesWarning, ?_, ?_⟩
    · simp only [validateDataIntegrity]
      rw [hwarn]
      simp
    · intro s hs
      obtain ⟨c, _hc, hcs⟩ := List.mem_map.mp hs
      exact ⟨c, hcs.symm⟩

/-- C10 counterexample: a store reached by a single `addDefinition` whose
general text merely contains the phrase `Definition not found` makes
`validateDataIntegrity` report an error and `isValid = false`, so the
missing-definition error branch is reachable. -/
theorem validateDataIntegrity_trap_cex :
    Reachable trapStore ∧
    (validateDataIntegrity trapStore).isValid = false ∧
    (validateDataIntegrity trapStore).errors ≠ [] :=
  ⟨Reachable.setDefinition ManualDataStore.empty trapDefinition Reachable.empty,
    by decide, by decide⟩

/-- Witness for C10 on a concrete two-step reachable store. -/
theorem validateDataIntegrity_clean_witness :
    (validateDataIntegrity healthyStore2).errors = [] ∧
    (validateDataIntegrity healthyStore2).isValid = true := by
  have h := validateDataIntegrity_clean healthyStore2
    (Reachable.setSentences healthyStore1 "cat" [⟨"The cat sleeps.", none, "daily", "beginner"⟩]
      (Reachable.setDefinition ManualDataStore.empty catDefinition Reachable.empty))
    (by decide)
  exact ⟨h.1, h.2.1⟩

end WordPecker
